import Mathlib

/-!
# Shallow embedding of the `s3_learning_project` persistence layer

This file models the storage engine of the repository (`src/storage.rs`,
with the thin wrappers in `src/bucket.rs` and `src/s3_service.rs`) and
proves the specification claims about it.

Modelling conventions:
* Byte sequences are `List Nat` (one `Nat` per byte).
* The SQLite catalog is modelled by its two tables: a list of bucket names
  (`buckets(name PRIMARY KEY)`) and a list of object rows
  (`objects(... PRIMARY KEY (bucket_name, key), file_path UNIQUE,
  FOREIGN KEY (bucket_name) REFERENCES buckets(name) ON DELETE CASCADE)`),
  exactly as declared in `Storage::new`.  `INSERT OR REPLACE` removes every
  row conflicting on either uniqueness constraint, as SQLite does, and the
  declared `ON DELETE CASCADE` removes the object rows of a deleted bucket.
* The filesystem (blob area) is a finite map from path to bytes,
  represented as an association list; `fs::write` overwrites in place and
  `fs::remove_file` is only called after an existence check.
* External libraries are abstracted at their interface: the MD5 digest
  (`calculate_etag`), `serde_json::to_string` and `serde_json::from_str`
  are fields of an `ExtFns` record, since their internals are not part of
  this repository.  Every claim proved here holds for an arbitrary such
  record; witnesses instantiate it with concrete functions.
* Fallible I/O and database steps are driven by an `IOEnv` record of
  injected outcomes: a flag per failure point that the code handles
  (`fs::write`, metadata serialization, the catalog upsert, and
  transaction commit), plus the clock value used for `last_modified`.
  Database changes made inside an uncommitted transaction are rolled back
  on error, while filesystem writes persist — exactly the two-substrate
  behaviour of the source.
* Errors keep the constructor structure of `StorageError` in
  `src/storage.rs`; payloads of wrapped external errors
  (`rusqlite::Error`, `std::io::Error`, ...) are dropped as they carry no
  information produced by this repository.
-/

namespace S3Spec

/-- A byte string, one `Nat` per byte. -/
abbrev Bytes := List Nat

/-- `StorageError` from `src/storage.rs` (payloads of wrapped external
library errors are dropped; message-bearing variants keep their string). -/
inductive StorageError where
  | DatabaseError
  | IoError
  | SystemTimeError
  | JsonError
  | TransactionCommitError
  | InvalidPath (p : String)
  | ObjectNotFound (key bucket : String)
  | BucketAlreadyExistsInStorage (bucket : String)
  | BucketNotFoundInStorage (bucket : String)
  | IntegrityError (msg : String)
  | ConsistencyError (msg : String)
deriving DecidableEq, Repr

/-- `Object` from `src/object.rs`. -/
structure Object where
  key : String
  data : Bytes
  content_type : Option String
  etag : Option String
  last_modified : Int
  user_metadata : Option (List (String × String))
deriving DecidableEq, Repr

/-- One row of the `objects` table, as created by `Storage::put_object`. -/
structure ObjectRow where
  bucket_name : String
  key : String
  file_path : String
  content_type : Option String
  etag : String
  size : Int
  last_modified : Int
  metadata : Option String
deriving DecidableEq, Repr

/-- The blob area: a finite map from file path to file contents. -/
abbrev Fs := List (String × Bytes)

/-- `fs::read`: the contents at a path, if the file exists. -/
def fsRead (fs : Fs) (p : String) : Option Bytes :=
  (fs.find? (fun e => e.1 == p)).map (fun e => e.2)

/-- `fs::remove_file` (guarded by `Path::exists` in the source, so a
missing path is simply left alone). -/
def fsRemove (fs : Fs) (p : String) : Fs :=
  fs.filter (fun e => e.1 != p)

/-- `fs::write`: create or truncate-and-overwrite the file at `p`. -/
def fsWrite (fs : Fs) (p : String) (d : Bytes) : Fs :=
  (p, d) :: fsRemove fs p

/-- The state owned by `Storage`: the two catalog tables plus the blob
area under the base path. -/
structure StorageState where
  buckets : List String
  objects : List ObjectRow
  fs : Fs
deriving DecidableEq, Repr

/-- The state right after `Storage::new` on a fresh database: both tables
empty, no blobs. -/
def StorageState.init : StorageState :=
  { buckets := [], objects := [], fs := [] }

/-- External library functions used by `src/storage.rs`: the MD5 hex
digest and the serde_json (de)serializer for the user-metadata map. -/
structure ExtFns where
  calculate_etag : Bytes → String
  mdSer : List (String × String) → String
  mdDe : String → Except Unit (List (String × String))

/-- Injected outcomes for the fallible steps of a storage operation, plus
the current clock (`SystemTime::now` as seconds since epoch). -/
structure IOEnv where
  writeOk : Bool
  jsonOk : Bool
  upsertOk : Bool
  commitOk : Bool
  now : Int
deriving DecidableEq, Repr

/-- An environment in which every fallible step succeeds. -/
def IOEnv.allOk (t : Int) : IOEnv :=
  { writeOk := true, jsonOk := true, upsertOk := true, commitOk := true, now := t }

/-- Blob location for `(bucket, key)`:
`base_path.join("buckets").join(bucket).join(&object.key)` with
`base_path = "data"` (see `Storage::new` and `Storage::put_object`). -/
def filePath (bucket key : String) : String :=
  "data/buckets/" ++ bucket ++ "/" ++ key

/-- `Storage::create_bucket` (`src/storage.rs:97-119`): insert the bucket
row; a `UNIQUE` violation on `buckets.name` rolls back and reports
`BucketAlreadyExistsInStorage`; a commit failure is mapped to
`DatabaseError` and leaves the catalog unchanged. -/
def Storage.create_bucket (env : IOEnv) (s : StorageState) (bucket_name : String) :
    Except StorageError Unit × StorageState :=
  if bucket_name ∈ s.buckets then
    (.error (.BucketAlreadyExistsInStorage bucket_name), s)
  else if env.commitOk = false then
    (.error .DatabaseError, s)
  else
    (.ok (), { s with buckets := s.buckets ++ [bucket_name] })

/-- `Storage::_delete_bucket` (`src/storage.rs:121-130`): delete the
bucket row; zero rows affected rolls back and reports
`BucketNotFoundInStorage`; success commits, and the
`ON DELETE CASCADE` declared in `Storage::new` removes every object row
scoped to the bucket. -/
def Storage._delete_bucket (env : IOEnv) (s : StorageState) (bucket : String) :
    Except StorageError Unit × StorageState :=
  if bucket ∈ s.buckets then
    if env.commitOk = false then
      (.error .TransactionCommitError, s)
    else
      (.ok (), { s with
        buckets := s.buckets.filter (fun n => n != bucket),
        objects := s.objects.filter (fun r => r.bucket_name != bucket) })
  else
    (.error (.BucketNotFoundInStorage bucket), s)

/-- `Storage::list_buckets` (`src/storage.rs:137-145`). -/
def Storage.list_buckets (s : StorageState) : Except StorageError (List String) :=
  .ok s.buckets

/-- `Storage::bucket_exists` (`src/storage.rs:156-162`). -/
def Storage.bucket_exists (s : StorageState) (bucket_name : String) :
    Except StorageError Bool :=
  .ok (decide (bucket_name ∈ s.buckets))

/-- The catalog row written by `Storage::put_object`: recomputed etag,
denormalized size, clock timestamp, serialized user metadata. -/
def Storage.putRow (E : ExtFns) (env : IOEnv) (bucket : String) (object : Object) :
    ObjectRow :=
  { bucket_name := bucket
    key := object.key
    file_path := filePath bucket object.key
    content_type := object.content_type
    etag := E.calculate_etag object.data
    size := (object.data.length : Int)
    last_modified := env.now
    metadata := object.user_metadata.map E.mdSer }

/-- `INSERT OR REPLACE INTO objects ...`: SQLite first deletes every row
conflicting with the new one on `PRIMARY KEY (bucket_name, key)` or on
`file_path UNIQUE`, then inserts the new row (with a fresh rowid, hence
last in scan order). -/
def Storage.upsertRows (rows : List ObjectRow) (bucket key file_path : String)
    (newRow : ObjectRow) : List ObjectRow :=
  (rows.filter (fun r =>
    !(r.bucket_name == bucket && r.key == key) && !(r.file_path == file_path)))
    ++ [newRow]

/-- `Storage::put_object` (`src/storage.rs:174-222`), step for step:
begin a transaction; `INSERT OR IGNORE` the bucket row; build the blob
path; `fs::write` the blob (failure aborts and rolls the transaction
back, leaving both substrates unchanged); serialize the user metadata
(failure rolls the catalog back but the blob write persists); upsert the
object row; commit (failure surfaces as `TransactionCommitError`, again
leaving the blob behind but no catalog change). -/
def Storage.put_object (E : ExtFns) (env : IOEnv) (s : StorageState)
    (bucket : String) (object : Object) :
    Except StorageError Unit × StorageState :=
  let buckets1 := if bucket ∈ s.buckets then s.buckets else s.buckets ++ [bucket]
  let file_path := filePath bucket object.key
  if env.writeOk = false then
    (.error .IoError, s)
  else
    let fs1 := fsWrite s.fs file_path object.data
    if object.user_metadata.isSome = true ∧ env.jsonOk = false then
      (.error .JsonError, { s with fs := fs1 })
    else if env.upsertOk = false then
      (.error .DatabaseError, { s with fs := fs1 })
    else if env.commitOk = false then
      (.error .TransactionCommitError, { s with fs := fs1 })
    else
      (.ok (), { buckets := buckets1
                 objects := Storage.upsertRows s.objects bucket object.key file_path
                   (Storage.putRow E env bucket object)
                 fs := fs1 })

/-- `Storage::get_object` (`src/storage.rs:234-282`): select the row by
`(bucket_name, key)` (first match; absence is `ObjectNotFound(key,
bucket)`); `fs::read` the recorded path; recompute the etag and fail with
`IntegrityError` on mismatch; deserialize the user metadata; return the
materialized object. -/
def Storage.get_object (E : ExtFns) (s : StorageState) (bucket key : String) :
    Except StorageError Object :=
  match s.objects.find? (fun r => r.bucket_name == bucket && r.key == key) with
  | none => .error (.ObjectNotFound key bucket)
  | some row =>
    match fsRead s.fs row.file_path with
    | none => .error .IoError
    | some data =>
      let current_etag := E.calculate_etag data
      if current_etag ≠ row.etag then
        .error (.IntegrityError
          ("ETag mismatch for " ++ bucket ++ "/" ++ key ++ " - possible data corruption"))
      else
        match row.metadata with
        | none =>
          .ok { key := key, data := data, content_type := row.content_type,
                etag := some row.etag, last_modified := row.last_modified,
                user_metadata := none }
        | some mj =>
          match E.mdDe mj with
          | .error _ => .error .JsonError
          | .ok m =>
            .ok { key := key, data := data, content_type := row.content_type,
                  etag := some row.etag, last_modified := row.last_modified,
                  user_metadata := some m }

/-- `Storage::delete_object` (`src/storage.rs:294-328`): read back the
blob path outside the transaction; `DELETE` the row; zero rows affected
rolls back and reports `ObjectNotFound(key, bucket)`; otherwise remove
the blob if it exists (a missing blob is tolerated) and commit. -/
def Storage.delete_object (env : IOEnv) (s : StorageState) (bucket key : String) :
    Except StorageError Bool × StorageState :=
  let fpOpt := (s.objects.find? (fun r => r.bucket_name == bucket && r.key == key)).map
    (fun r => r.file_path)
  let objects1 := s.objects.filter (fun r => !(r.bucket_name == bucket && r.key == key))
  let rows_affected := s.objects.countP (fun r => r.bucket_name == bucket && r.key == key)
  if rows_affected > 0 then
    let fs1 := match fpOpt with
      | some fp => fsRemove s.fs fp
      | none => s.fs
    if env.commitOk = false then
      (.error .TransactionCommitError, { s with fs := fs1 })
    else
      (.ok true, { s with objects := objects1, fs := fs1 })
  else
    (.error (.ObjectNotFound key bucket), s)

/-- `Storage::list_objects` (`src/storage.rs:339-349`): select the keys
under the bucket.  There is no bucket-existence check; an absent bucket
simply yields the empty listing. -/
def Storage.list_objects (s : StorageState) (bucket : String) :
    Except StorageError (List String) :=
  .ok ((s.objects.filter (fun r => r.bucket_name == bucket)).map (fun r => r.key))

/-- The row scan of `Storage::check_consistency`: for each row in order,
verify the blob exists (else a `ConsistencyError` naming bucket, key and
path) and that its recomputed etag matches the stored one (else a
`ConsistencyError` naming bucket and key). -/
def Storage.checkRows (E : ExtFns) (fs : Fs) : List ObjectRow → Except StorageError Unit
  | [] => .ok ()
  | r :: rest =>
    match fsRead fs r.file_path with
    | none =>
      .error (.ConsistencyError
        ("File not found for " ++ r.bucket_name ++ "/" ++ r.key ++ " at path " ++ r.file_path))
    | some data =>
      if E.calculate_etag data = r.etag then
        Storage.checkRows E fs rest
      else
        .error (.ConsistencyError
          ("ETag mismatch for " ++ r.bucket_name ++ "/" ++ r.key ++ " - possible data corruption"))

/-- `Storage::check_consistency` (`src/storage.rs:373-406`): scan every
object row (the function only executes `SELECT`s and `fs::read`s, so the
state is unchanged; its embedding is therefore read-only). -/
def Storage.check_consistency (E : ExtFns) (s : StorageState) : Except StorageError Unit :=
  Storage.checkRows E s.fs s.objects

/-- `BucketError` from `src/bucket.rs`.  The source stringifies the
wrapped `StorageError` via `Display`; the model keeps the error value
itself, which carries the same information. -/
inductive BucketError where
  | ObjectCreationError
  | LockAcquisitionFailed
  | StorageError (e : S3Spec.StorageError)
deriving DecidableEq, Repr

/-- `Bucket::put_object` (`src/bucket.rs:102-109`): takes the storage
lock and calls `Storage::put_object` — but the mapped error result is
bound to `_` and discarded, and `Ok(())` is returned unconditionally. -/
def Bucket.put_object (E : ExtFns) (env : IOEnv) (name : String) (s : StorageState)
    (object : Object) : Except BucketError Unit × StorageState :=
  let r := Storage.put_object E env s name object
  (.ok (), r.2)

/-- `Bucket::list_objects` (`src/bucket.rs:161-170`): pass through to
`Storage::list_objects`, wrapping any error. -/
def Bucket.list_objects (name : String) (s : StorageState) :
    Except BucketError (List String) :=
  match Storage.list_objects s name with
  | .ok r => .ok r
  | .error e => .error (.StorageError e)

/-- `S3Error` from `src/s3_service.rs`. -/
inductive S3Error where
  | BucketAlreadyExists (b : String)
  | BucketNotFound (b : String)
  | ObjectNotFound (k b : String)
  | InvalidOperation (m : String)
  | ObjectCreationFailed
  | BucketError (e : S3Spec.BucketError)
deriving DecidableEq, Repr

/-- The `S3Service` bucket map (`src/s3_service.rs:35-37`), modelled by
the set of names present in its in-memory `HashMap`. -/
structure S3Service where
  buckets : List String
deriving DecidableEq, Repr

/-- `S3Service::list_objects` (`src/s3_service.rs:264-273`): look the
bucket up in the service's own map; absence is `BucketNotFound`;
otherwise delegate to the bucket, wrapping bucket errors. -/
def S3Service.list_objects (svc : S3Service) (s : StorageState) (bucket_name : String) :
    Except S3Error (List String) :=
  if bucket_name ∈ svc.buckets then
    match Bucket.list_objects bucket_name s with
    | .ok objects => .ok objects
    | .error e => .error (.BucketError e)
  else
    .error (.BucketNotFound bucket_name)

/-- The per-row integrity invariant of §3 of the spec: a blob exists at
the row's recorded location and the row's stored etag equals the etag
recomputed over that blob's bytes. -/
def RowOk (E : ExtFns) (fs : Fs) (r : ObjectRow) : Prop :=
  ∃ d, fsRead fs r.file_path = some d ∧ E.calculate_etag d = r.etag

/-- The catalog/blob-area invariant: every committed object row satisfies
`RowOk`. -/
def Consistent (E : ExtFns) (s : StorageState) : Prop :=
  ∀ r ∈ s.objects, RowOk E s.fs r

/-- The `file_path UNIQUE` column constraint of the `objects` table,
viewed as a state invariant. -/
def PathsUnique (s : StorageState) : Prop :=
  s.objects.Pairwise (fun r1 r2 => r1.file_path ≠ r2.file_path)

/-- States reachable from a fresh `Storage::new` through the storage
operations.  Bucket creation/deletion is admitted with any outcome (its
failures leave the state unchanged); `put_object` and `delete_object`
steps are the successful ones, matching the claim, which speaks of the
state after every *successful* put and delete. -/
inductive Reachable (E : ExtFns) : StorageState → Prop where
  | init : Reachable E StorageState.init
  | create (env : IOEnv) (b : String) {s : StorageState} :
      Reachable E s → Reachable E (Storage.create_bucket env s b).2
  | dropBucket (env : IOEnv) (b : String) {s : StorageState} :
      Reachable E s → Reachable E (Storage._delete_bucket env s b).2
  | put (env : IOEnv) (b : String) (o : Object) {s : StorageState} :
      Reachable E s → (Storage.put_object E env s b o).1 = Except.ok () →
      Reachable E (Storage.put_object E env s b o).2
  | del (env : IOEnv) (b k : String) (t : Bool) {s : StorageState} :
      Reachable E s → (Storage.delete_object env s b k).1 = Except.ok t →
      Reachable E (Storage.delete_object env s b k).2

/-- The message carried by the `ConsistencyError` that
`Storage::check_consistency` reports for a violating row: the
missing-blob message names bucket, key and path; the etag-mismatch
message names bucket and key only (`src/storage.rs:388-401`). -/
def violationMsg (fs : Fs) (r : ObjectRow) : String :=
  match fsRead fs r.file_path with
  | none =>
    "File not found for " ++ r.bucket_name ++ "/" ++ r.key ++ " at path " ++ r.file_path
  | some _ =>
    "ETag mismatch for " ++ r.bucket_name ++ "/" ++ r.key ++ " - possible data corruption"

/-- A concrete instantiation of the external functions, used by the
witnesses: the digest prints the byte list. -/
def extC : ExtFns :=
  { calculate_etag := fun d => toString d
    mdSer := fun _ => "md"
    mdDe := fun _ => .ok [] }

/-- External functions whose digest is constantly `"bb"` — used to build
concrete etag-mismatch scenarios. -/
def extBad : ExtFns :=
  { calculate_etag := fun _ => "bb"
    mdSer := fun _ => "md"
    mdDe := fun _ => .ok [] }

/-- A concrete object for witnesses. -/
def objC : Object :=
  { key := "k", data := [1], content_type := none, etag := none,
    last_modified := 0, user_metadata := none }

/-- A state holding just the bucket `"b"`. -/
def sB : StorageState :=
  { buckets := ["b"], objects := [], fs := [] }

/-- A catalog row whose stored etag `"aa"` disagrees with the recomputed
digest `"bb"` of its on-disk blob. -/
def rowBad : ObjectRow :=
  { bucket_name := "b", key := "k", file_path := "data/buckets/b/k",
    content_type := none, etag := "aa", size := 1, last_modified := 0, metadata := none }

/-- State in which `rowBad`'s blob exists but its etag mismatches. -/
def stateBad : StorageState :=
  { buckets := ["b"], objects := [rowBad], fs := [("data/buckets/b/k", [0])] }

/-- A catalog row whose blob is missing. -/
def rowMissing : ObjectRow :=
  { bucket_name := "b", key := "k", file_path := "data/buckets/b/k",
    content_type := none, etag := "aa", size := 1, last_modified := 0, metadata := none }

/-- State in which `rowMissing` has no blob on disk. -/
def stateMissing : StorageState :=
  { buckets := ["b"], objects := [rowMissing], fs := [] }

/-- A well-formed single-object state for witnesses: the stored etag is
the digest `extC` computes over the stored blob. -/
def rowC : ObjectRow :=
  { bucket_name := "b", key := "k", file_path := "data/buckets/b/k",
    content_type := none, etag := extC.calculate_etag [1], size := 1,
    last_modified := 0, metadata := none }

/-- State holding `rowC` and its blob. -/
def stateC : StorageState :=
  { buckets := ["b"], objects := [rowC], fs := [("data/buckets/b/k", [1])] }

/-- An environment in which the transaction commit fails and every other
step succeeds. -/
def envCommitFail : IOEnv :=
  { writeOk := true, jsonOk := true, upsertOk := true, commitOk := false, now := 0 }

theorem find?_filter_of_imp {α : Type} (l : List α) (f g : α → Bool)
    (h : ∀ a, g a = true → f a = true) :
    (l.filter f).find? g = l.find? g := by
  induction l with
  | nil => rfl
  | cons a l ih =>
    by_cases hg : g a = true
    · rw [List.filter_cons, if_pos (h a hg), List.find?_cons_of_pos _ hg,
        List.find?_cons_of_pos _ hg]
    · rw [List.find?_cons_of_neg _ hg, List.filter_cons]
      by_cases hf : f a = true
      · rw [if_pos hf, List.find?_cons_of_neg _ hg, ih]
      · rw [if_neg hf, ih]

theorem fsRead_fsWrite_self (fs : Fs) (p : String) (d : Bytes) :
    fsRead (fsWrite fs p d) p = some d := by
  simp [fsRead, fsWrite]

theorem fsRead_fsRemove_ne (fs : Fs) (p q : String) (h : q ≠ p) :
    fsRead (fsRemove fs p) q = fsRead fs q := by
  unfold fsRead fsRemove
  rw [find?_filter_of_imp]
  intro a ha
  simp only [beq_iff_eq] at ha
  simp [bne_iff_ne, ha, h]

theorem fsRead_fsRemove_self (fs : Fs) (p : String) :
    fsRead (fsRemove fs p) p = none := by
  have hnone : (fs.filter (fun e => e.1 != p)).find? (fun e => e.1 == p) = none := by
    rw [List.find?_eq_none]
    intro x hx
    have hkeep := (List.mem_filter.1 hx).2
    simp only [bne_iff_ne] at hkeep
    simp [hkeep]
  simp [fsRead, fsRemove, hnone]

theorem fsRead_fsWrite_ne (fs : Fs) (p q : String) (d : Bytes) (h : q ≠ p) :
    fsRead (fsWrite fs p d) q = fsRead fs q := by
  unfold fsWrite
  rw [show fsRead ((p, d) :: fsRemove fs p) q
      = fsRead (fsRemove fs p) q from ?_, fsRead_fsRemove_ne fs p q h]
  unfold fsRead
  rw [List.find?_cons_of_neg]
  simp [Ne.symm h]

theorem find?_upsertRows_self (rows : List ObjectRow) (b k fp : String) (row : ObjectRow)
    (hb : row.bucket_name = b) (hk : row.key = k) :
    (Storage.upsertRows rows b k fp row).find?
      (fun r => r.bucket_name == b && r.key == k) = some row := by
  unfold Storage.upsertRows
  rw [List.find?_append]
  have h1 : (rows.filter (fun r =>
      !(r.bucket_name == b && r.key == k) && !(r.file_path == fp))).find?
      (fun r => r.bucket_name == b && r.key == k) = none := by
    rw [List.find?_eq_none]
    intro x hx
    have hkeep := (List.mem_filter.1 hx).2
    simp only [Bool.and_eq_true, Bool.not_eq_true'] at hkeep
    simp [hkeep.1]
  rw [h1]
  simp [List.find?_cons_of_pos, hb, hk]

theorem put_object_ok (E : ExtFns) (env : IOEnv) (s : StorageState) (b : String) (o : Object)
    (h : (Storage.put_object E env s b o).1 = Except.ok ()) :
    (Storage.put_object E env s b o).2 =
      { buckets := if b ∈ s.buckets then s.buckets else s.buckets ++ [b]
        objects := Storage.upsertRows s.objects b o.key (filePath b o.key)
          (Storage.putRow E env b o)
        fs := fsWrite s.fs (filePath b o.key) o.data } := by
  by_cases hw : env.writeOk = false
  · simp [Storage.put_object, hw] at h
  · by_cases hj : o.user_metadata.isSome = true ∧ env.jsonOk = false
    · simp [Storage.put_object, hw, hj] at h
    · by_cases hu : env.upsertOk = false
      · simp [Storage.put_object, hw, hj, hu] at h
      · by_cases hc : env.commitOk = false
        · simp [Storage.put_object, hw, hj, hu, hc] at h
        · simp [Storage.put_object, hw, hj, hu, hc]

theorem delete_object_found (env : IOEnv) (s : StorageState) (b k : String) (r0 : ObjectRow)
    (hc : env.commitOk = true)
    (hr0 : s.objects.find? (fun r => r.bucket_name == b && r.key == k) = some r0) :
    Storage.delete_object env s b k =
      (.ok true, { s with
        objects := s.objects.filter (fun r => !(r.bucket_name == b && r.key == k)),
        fs := fsRemove s.fs r0.file_path }) := by
  have hp : (r0.bucket_name == b && r0.key == k) = true := by
    simpa using List.find?_some hr0
  have hpos : 0 < s.objects.countP (fun r => r.bucket_name == b && r.key == k) :=
    List.countP_pos_iff.2 ⟨r0, List.mem_of_find?_eq_some hr0, hp⟩
  simp [Storage.delete_object, hr0, hpos, hc, gt_iff_lt]

theorem delete_object_not_found (env : IOEnv) (s : StorageState) (b k : String)
    (hnone : s.objects.find? (fun r => r.bucket_name == b && r.key == k) = none) :
    Storage.delete_object env s b k = (.error (.ObjectNotFound k b), s) := by
  have hz : s.objects.countP (fun r => r.bucket_name == b && r.key == k) = 0 := by
    rw [List.countP_eq_zero]
    exact List.find?_eq_none.1 hnone
  simp [Storage.delete_object, hnone, hz]

theorem Consistent.congr_state {E : ExtFns} {s s' : StorageState}
    (h1 : s'.objects = s.objects) (h2 : s'.fs = s.fs) (hC : Consistent E s) :
    Consistent E s' := by
  intro r hr
  unfold RowOk
  rw [h2]
  exact hC r (h1 ▸ hr)

theorem create_bucket_objects_fs (env : IOEnv) (s : StorageState) (b : String) :
    (Storage.create_bucket env s b).2.objects = s.objects ∧
    (Storage.create_bucket env s b).2.fs = s.fs := by
  by_cases h1 : b ∈ s.buckets <;> by_cases h2 : env.commitOk = false <;>
    simp [Storage.create_bucket, h1, h2]

theorem drop_bucket_preserves (E : ExtFns) (env : IOEnv) (s : StorageState) (b : String)
    (hC : Consistent E s) (hU : PathsUnique s) :
    Consistent E (Storage._delete_bucket env s b).2 ∧
    PathsUnique (Storage._delete_bucket env s b).2 := by
  by_cases h1 : b ∈ s.buckets
  · by_cases h2 : env.commitOk = false
    · simp only [Storage._delete_bucket, if_pos h1, if_pos h2]
      exact ⟨hC, hU⟩
    · simp only [Storage._delete_bucket, if_pos h1, if_neg h2]
      constructor
      · intro r hr
        exact hC r (List.mem_of_mem_filter hr)
      · exact List.Pairwise.sublist (List.filter_sublist _) hU
  · simp only [Storage._delete_bucket, if_neg h1]
    exact ⟨hC, hU⟩

theorem put_preserves (E : ExtFns) (env : IOEnv) (s : StorageState) (b : String) (o : Object)
    (hok : (Storage.put_object E env s b o).1 = Except.ok ())
    (hC : Consistent E s) (hU : PathsUnique s) :
    Consistent E (Storage.put_object E env s b o).2 ∧
    PathsUnique (Storage.put_object E env s b o).2 := by
  rw [put_object_ok E env s b o hok]
  constructor
  · intro r hr
    rcases List.mem_append.1 hr with hmem | hmem
    · have hmemS := (List.mem_filter.1 hmem).1
      have hkeep := (List.mem_filter.1 hmem).2
      simp only [Bool.and_eq_true, Bool.not_eq_true', beq_eq_false_iff_ne] at hkeep
      obtain ⟨d, hd, he⟩ := hC r hmemS
      exact ⟨d, by rw [fsRead_fsWrite_ne _ _ _ _ hkeep.2]; exact hd, he⟩
    · have : r = Storage.putRow E env b o := by simpa using hmem
      subst this
      exact ⟨o.data, fsRead_fsWrite_self _ _ _, rfl⟩
  · apply List.pairwise_append.2
    refine ⟨List.Pairwise.sublist (List.filter_sublist _) hU, List.pairwise_singleton _ _, ?_⟩
    intro r hr r' hr'
    have : r' = Storage.putRow E env b o := by simpa using hr'
    subst this
    have hkeep := (List.mem_filter.1 hr).2
    simp only [Bool.and_eq_true, Bool.not_eq_true', beq_eq_false_iff_ne] at hkeep
    exact hkeep.2

theorem delete_preserves (E : ExtFns) (env : IOEnv) (s : StorageState) (b k : String) (t : Bool)
    (hok : (Storage.delete_object env s b k).1 = Except.ok t)
    (hC : Consistent E s) (hU : PathsUnique s) :
    Consistent E (Storage.delete_object env s b k).2 ∧
    PathsUnique (Storage.delete_object env s b k).2 := by
  cases hfind : s.objects.find? (fun r => r.bucket_name == b && r.key == k) with
  | none =>
    rw [delete_object_not_found env s b k hfind]
    exact ⟨hC, hU⟩
  | some r0 =>
    have hc : env.commitOk = true := by
      by_contra hcn
      have hcn' : env.commitOk = false := by
        cases hcv : env.commitOk
        · rfl
        · exact absurd hcv hcn
      have hp : (r0.bucket_name == b && r0.key == k) = true := by
        simpa using List.find?_some hfind
      have hpos : 0 < s.objects.countP (fun r => r.bucket_name == b && r.key == k) :=
        List.countP_pos_iff.2 ⟨r0, List.mem_of_find?_eq_some hfind, hp⟩
      simp [Storage.delete_object, hfind, hpos, hcn', gt_iff_lt] at hok
    rw [delete_object_found env s b k r0 hc hfind]
    have hr0mem := List.mem_of_find?_eq_some hfind
    have hr0p : (r0.bucket_name == b && r0.key == k) = true := by
      simpa using List.find?_some hfind
    constructor
    · intro r hr
      have hmemS := (List.mem_filter.1 hr).1
      have hkeep := (List.mem_filter.1 hr).2
      have hne : r ≠ r0 := by
        intro he
        rw [he, hr0p] at hkeep
        exact Bool.noConfusion hkeep
      have hpath : r.file_path ≠ r0.file_path :=
        List.Pairwise.forall (fun _ _ h => Ne.symm h) hU hmemS hr0mem hne
      obtain ⟨d, hd, he⟩ := hC r hmemS
      exact ⟨d, by rw [fsRead_fsRemove_ne _ _ _ hpath]; exact hd, he⟩
    · exact List.Pairwise.sublist (List.filter_sublist _) hU

theorem reachable_consistent (E : ExtFns) (s : StorageState) (h : Reachable E s) :
    Consistent E s ∧ PathsUnique s := by
  induction h with
  | init =>
    constructor
    · intro r hr
      exact absurd hr (by simp [StorageState.init])
    · simp [PathsUnique, StorageState.init]
  | create env b hs ih =>
    obtain ⟨h1, h2⟩ := create_bucket_objects_fs env _ b
    refine ⟨Consistent.congr_state h1 h2 ih.1, ?_⟩
    unfold PathsUnique
    rw [h1]
    exact ih.2
  | dropBucket env b hs ih =>
    exact drop_bucket_preserves E env _ b ih.1 ih.2
  | put env b o hs hok ih =>
    exact put_preserves E env _ b o hok ih.1 ih.2
  | del env b k t hs hok ih =>
    exact delete_preserves E env _ b k t hok ih.1 ih.2

theorem checkRows_eq_ok_iff (E : ExtFns) (fs : Fs) (rows : List ObjectRow) :
    Storage.checkRows E fs rows = Except.ok () ↔ ∀ r ∈ rows, RowOk E fs r := by
  induction rows with
  | nil => simp [Storage.checkRows]
  | cons r rest ih =>
    cases hr : fsRead fs r.file_path with
    | none =>
      constructor
      · intro h
        simp [Storage.checkRows, hr] at h
      · intro h
        obtain ⟨d, hd, _⟩ := h r (List.mem_cons_self r rest)
        rw [hr] at hd
        exact Option.noConfusion hd
    | some d =>
      by_cases he : E.calculate_etag d = r.etag
      · rw [List.forall_mem_cons]
        constructor
        · intro h
          have h' : Storage.checkRows E fs rest = Except.ok () := by
            simpa [Storage.checkRows, hr, he] using h
          exact ⟨⟨d, hr, he⟩, ih.1 h'⟩
        · intro h
          simpa [Storage.checkRows, hr, he] using ih.2 h.2
      · constructor
        · intro h
          simp [Storage.checkRows, hr, he] at h
        · intro h
          obtain ⟨d', hd', he'⟩ := h r (List.mem_cons_self r rest)
          rw [hr] at hd'
          cases hd'
          exact absurd he' he

theorem checkRows_first_violation (E : ExtFns) (fs : Fs)
    (l₁ : List ObjectRow) (r : ObjectRow) (l₂ : List ObjectRow)
    (hpass : ∀ x ∈ l₁, RowOk E fs x) (hfail : ¬ RowOk E fs r) :
    Storage.checkRows E fs (l₁ ++ r :: l₂) =
      Except.error (.ConsistencyError (violationMsg fs r)) := by
  induction l₁ with
  | nil =>
    cases hr : fsRead fs r.file_path with
    | none => simp [Storage.checkRows, hr, violationMsg]
    | some d =>
      have hne : E.calculate_etag d ≠ r.etag := fun he => hfail ⟨d, hr, he⟩
      simp [Storage.checkRows, hr, violationMsg, hne]
  | cons x l₁ ih =>
    obtain ⟨d, hd, he⟩ := hpass x (List.mem_cons_self x l₁)
    have ih' := ih (fun y hy => hpass y (List.mem_cons_of_mem x hy))
    simpa [Storage.checkRows, hd, he] using ih'

theorem violationMsg_names_bucket (fs : Fs) (r : ObjectRow) :
    r.bucket_name.data <:+: (violationMsg fs r).data := by
  unfold violationMsg
  cases fsRead fs r.file_path with
  | none =>
    exact ⟨"File not found for ".data,
      ("/" ++ r.key ++ " at path " ++ r.file_path).data, by simp⟩
  | some d =>
    exact ⟨"ETag mismatch for ".data,
      ("/" ++ r.key ++ " - possible data corruption").data, by simp⟩

theorem violationMsg_names_key (fs : Fs) (r : ObjectRow) :
    r.key.data <:+: (violationMsg fs r).data := by
  unfold violationMsg
  cases fsRead fs r.file_path with
  | none =>
    exact ⟨("File not found for " ++ r.bucket_name ++ "/").data,
      (" at path " ++ r.file_path).data, by simp⟩
  | some d =>
    exact ⟨("ETag mismatch for " ++ r.bucket_name ++ "/").data,
      " - possible data corruption".data, by simp⟩

theorem violationMsg_names_path (fs : Fs) (r : ObjectRow)
    (hnone : fsRead fs r.file_path = none) :
    r.file_path.data <:+: (violationMsg fs r).data := by
  unfold violationMsg
  rw [hnone]
  exact ⟨("File not found for " ++ r.bucket_name ++ "/" ++ r.key ++ " at path ").data,
    [], by simp⟩

/-- Claim C1: for every bucket name `b`, key and byte sequence, with `b`
existing, a successful `put_object(b, k, bytes, …)` followed by
`get_object(b, k)` returns data identical to `bytes`, and the returned
etag equals the digest recomputed over the returned bytes (round-trip
law).  The metadata hypothesis says the external serde_json codec
round-trips the object's own metadata map, which holds of the real
library. -/
theorem put_get_roundtrip (E : ExtFns) (env : IOEnv) (s : StorageState) (b : String) (o : Object)
    (hb : b ∈ s.buckets)
    (hmd : ∀ m, o.user_metadata = some m → ∃ m2, E.mdDe (E.mdSer m) = Except.ok m2)
    (hok : (Storage.put_object E env s b o).1 = Except.ok ()) :
    ∃ ret, Storage.get_object E (Storage.put_object E env s b o).2 b o.key = Except.ok ret ∧
      ret.data = o.data ∧ ret.etag = some (E.calculate_etag ret.data) := by
  rw [put_object_ok E env s b o hok]
  have hfind := find?_upsertRows_self s.objects b o.key (filePath b o.key)
    (Storage.putRow E env b o) rfl rfl
  have hread : fsRead (fsWrite s.fs (filePath b o.key) o.data)
      (Storage.putRow E env b o).file_path = some o.data :=
    fsRead_fsWrite_self s.fs (filePath b o.key) o.data
  cases hmo : o.user_metadata with
  | none =>
    have hgoal : Storage.get_object E
        { buckets := if b ∈ s.buckets then s.buckets else s.buckets ++ [b]
          objects := Storage.upsertRows s.objects b o.key (filePath b o.key)
            (Storage.putRow E env b o)
          fs := fsWrite s.fs (filePath b o.key) o.data } b o.key =
        Except.ok
          { key := o.key
            data := o.data
            content_type := o.content_type
            etag := some (E.calculate_etag o.data)
            last_modified := env.now
            user_metadata := none } := by
      simp only [Storage.get_object, hfind, hread]
      simp [Storage.putRow, hmo]
    exact ⟨_, hgoal, rfl, rfl⟩
  | some m =>
    obtain ⟨m2, hm2⟩ := hmd m hmo
    have hgoal : Storage.get_object E
        { buckets := if b ∈ s.buckets then s.buckets else s.buckets ++ [b]
          objects := Storage.upsertRows s.objects b o.key (filePath b o.key)
            (Storage.putRow E env b o)
          fs := fsWrite s.fs (filePath b o.key) o.data } b o.key =
        Except.ok
          { key := o.key
            data := o.data
            content_type := o.content_type
            etag := some (E.calculate_etag o.data)
            last_modified := env.now
            user_metadata := some m2 } := by
      simp only [Storage.get_object, hfind, hread]
      simp [Storage.putRow, hmo, hm2]
    exact ⟨_, hgoal, rfl, rfl⟩

/-- Witness for C1 at a concrete input: put key `"k"` with bytes `[1]`
into existing bucket `"b"`, then get it back. -/
theorem put_get_roundtrip_witness :
    ∃ ret, Storage.get_object extC
        (Storage.put_object extC (IOEnv.allOk 0) sB "b" objC).2 "b" objC.key =
        Except.ok ret ∧ ret.data = objC.data ∧
        ret.etag = some (extC.calculate_etag ret.data) :=
  put_get_roundtrip extC (IOEnv.allOk 0) sB "b" objC (by simp [sB])
    (fun m hm => by simp [objC] at hm) rfl

/-- Claim C2: for every `(bucket, key)` whose catalog row exists and whose
recorded blob is readable, a mismatch between the recomputed digest and
the row's stored etag makes `get_object` fail with `IntegrityError` — the
bytes are never returned — while a match makes it return the bytes
(provided the stored metadata deserializes, as any metadata this system
writes does). -/
theorem get_object_integrity (E : ExtFns) (s : StorageState) (b k : String)
    (row : ObjectRow) (data : Bytes)
    (hrow : s.objects.find? (fun r => r.bucket_name == b && r.key == k) = some row)
    (hread : fsRead s.fs row.file_path = some data) :
    (E.calculate_etag data ≠ row.etag →
      Storage.get_object E s b k = Except.error (.IntegrityError
        ("ETag mismatch for " ++ b ++ "/" ++ k ++ " - possible data corruption"))) ∧
    (E.calculate_etag data = row.etag →
      (∀ mj, row.metadata = some mj → ∃ m, E.mdDe mj = Except.ok m) →
      ∃ ret, Storage.get_object E s b k = Except.ok ret ∧ ret.data = data) := by
  constructor
  · intro hne
    simp [Storage.get_object, hrow, hread, hne]
  · intro heq hmd
    cases hmj : row.metadata with
    | none =>
      have hgoal : Storage.get_object E s b k = Except.ok
          { key := k
            data := data
            content_type := row.content_type
            etag := some row.etag
            last_modified := row.last_modified
            user_metadata := none } := by
        simp [Storage.get_object, hrow, hread, heq, hmj]
      exact ⟨_, hgoal, rfl⟩
    | some mj =>
      obtain ⟨m, hm⟩ := hmd mj hmj
      have hgoal : Storage.get_object E s b k = Except.ok
          { key := k
            data := data
            content_type := row.content_type
            etag := some row.etag
            last_modified := row.last_modified
            user_metadata := some m } := by
        simp [Storage.get_object, hrow, hread, heq, hmj, hm]
      exact ⟨_, hgoal, rfl⟩

/-- Witness for C2: a row whose stored etag `"aa"` disagrees with the
digest `"bb"` of its blob makes `get_object` fail with
`IntegrityError`. -/
theorem get_object_integrity_witness :
    Storage.get_object extBad stateBad "b" "k" = Except.error
      (.IntegrityError ("ETag mismatch for " ++ "b" ++ "/" ++ "k" ++
        " - possible data corruption")) :=
  (get_object_integrity extBad stateBad "b" "k" rowBad [0] rfl rfl).1 (by decide)

/-- Claim C3: on every reachable state (reachable from a fresh store
through the storage operations, the puts and deletes along the way being
the successful ones), the committed-row integrity invariant — every
catalog row has a blob at its recorded location whose recomputed digest
equals the stored etag — holds again after every further successful
`put_object` and after every successful `delete_object`. -/
theorem put_delete_preserve_invariant (E : ExtFns) (s : StorageState) (h : Reachable E s) :
    (∀ env b o, (Storage.put_object E env s b o).1 = Except.ok () →
      Consistent E (Storage.put_object E env s b o).2) ∧
    (∀ env b k t, (Storage.delete_object env s b k).1 = Except.ok t →
      Consistent E (Storage.delete_object env s b k).2) := by
  obtain ⟨hC, hU⟩ := reachable_consistent E s h
  exact ⟨fun env b o hok => (put_preserves E env s b o hok hC hU).1,
    fun env b k t hok => (delete_preserves E env s b k t hok hC hU).1⟩

/-- Witness for C3: a successful put on the fresh (reachable) store
leaves a consistent state. -/
theorem put_delete_preserve_invariant_witness :
    Consistent extC (Storage.put_object extC (IOEnv.allOk 0) StorageState.init "b" objC).2 :=
  (put_delete_preserve_invariant extC StorageState.init Reachable.init).1
    (IOEnv.allOk 0) "b" objC rfl

/-- Claim C4 counterexample: the claim says every `ConsistencyError`
names the violating row's bucket, key *and path*, but for an etag
mismatch the reported message does not contain the path.  Concrete
input: a single committed row at `data/buckets/b/k` whose stored etag
`"aa"` disagrees with the recomputed digest `"bb"`. -/
theorem check_consistency_mismatch_omits_path :
    Storage.check_consistency extBad stateBad =
      Except.error (.ConsistencyError "ETag mismatch for b/k - possible data corruption") ∧
    ¬ ("data/buckets/b/k".data <:+:
        ("ETag mismatch for b/k - possible data corruption").data) := by
  constructor
  · rfl
  · decide

/-- Claim C4 (amended): `check_consistency` returns `Ok` exactly when
every catalog row's blob exists and its recomputed digest equals the
stored etag; otherwise it stops at the first violating row in scan order
and returns a `ConsistencyError` naming that row's bucket and key — and
additionally the path when the violation is a missing blob (for an etag
mismatch the message omits the path).  The function only reads (its
embedding is state-free, matching the `SELECT`s and `fs::read`s of the
source), so it mutates neither the catalog nor the blob area. -/
theorem check_consistency_spec (E : ExtFns) (s : StorageState) :
    (Storage.check_consistency E s = Except.ok () ↔ ∀ r ∈ s.objects, RowOk E s.fs r) ∧
    (∀ l₁ r l₂, s.objects = l₁ ++ r :: l₂ →
      (∀ x ∈ l₁, RowOk E s.fs x) → ¬ RowOk E s.fs r →
      Storage.check_consistency E s =
        Except.error (.ConsistencyError (violationMsg s.fs r)) ∧
      r.bucket_name.data <:+: (violationMsg s.fs r).data ∧
      r.key.data <:+: (violationMsg s.fs r).data ∧
      (fsRead s.fs r.file_path = none → r.file_path.data <:+: (violationMsg s.fs r).data)) := by
  constructor
  · exact checkRows_eq_ok_iff E s.fs s.objects
  · intro l₁ r l₂ hsplit hpass hfail
    refine ⟨?_, violationMsg_names_bucket s.fs r, violationMsg_names_key s.fs r,
      violationMsg_names_path s.fs r⟩
    unfold Storage.check_consistency
    rw [hsplit]
    exact checkRows_first_violation E s.fs l₁ r l₂ hpass hfail

/-- Witness for C4 at a concrete input: a single row whose blob is
missing makes the scan stop with the file-not-found consistency error. -/
theorem check_consistency_spec_witness :
    Storage.check_consistency extBad stateMissing =
      Except.error (.ConsistencyError (violationMsg stateMissing.fs rowMissing)) :=
  ((check_consistency_spec extBad stateMissing).2 [] rowMissing [] rfl
    (by intro x hx; exact absurd hx (by simp))
    (by
      rintro ⟨d, hd, -⟩
      simp [stateMissing, rowMissing, fsRead] at hd)).1

/-- Claim C5: the code contradicts it at the bucket layer.  With every
step succeeding except the final transaction commit,
`Storage::put_object` does propagate the error and commits no catalog
row (the blob is left behind, unreferenced) — but `Bucket::put_object`
(`src/bucket.rs:107`) discards that error and returns `Ok(())`, so the
failure never reaches the caller of the engine-level put. -/
theorem bucket_put_swallows_commit_failure :
    (Storage.put_object extC envCommitFail sB "b" objC).1 =
      Except.error .TransactionCommitError ∧
    (Storage.put_object extC envCommitFail sB "b" objC).2.objects = [] ∧
    (Storage.put_object extC envCommitFail sB "b" objC).2.fs =
      [(filePath "b" "k", [1])] ∧
    Bucket.put_object extC envCommitFail "b" sB objC =
      (Except.ok (), (Storage.put_object extC envCommitFail sB "b" objC).2) := by
  refine ⟨rfl, rfl, rfl, rfl⟩

/-- Claim C6: `delete_object` returns `true` when a catalog row existed,
removing every row for that `(bucket, key)` and removing the blob at the
row's recorded location — the blob area afterward is exactly the old one
with that path removed, so a blob already missing is tolerated
(`fsRemove` is then a no-op), and no blob remains at that path; nothing
else in the catalog is touched.  When no row exists it rolls back,
reports `ObjectNotFound`, and leaves the state unchanged — hence a
second delete of the same object reports `ObjectNotFound`. -/
theorem delete_object_spec (env env2 : IOEnv) (s : StorageState) (b k : String)
    (hc : env.commitOk = true) :
    (∀ r0, s.objects.find? (fun r => r.bucket_name == b && r.key == k) = some r0 →
      (Storage.delete_object env s b k).1 = Except.ok true ∧
      (∀ r ∈ (Storage.delete_object env s b k).2.objects, ¬(r.bucket_name = b ∧ r.key = k)) ∧
      (Storage.delete_object env s b k).2.fs = fsRemove s.fs r0.file_path ∧
      fsRead (Storage.delete_object env s b k).2.fs r0.file_path = none ∧
      (Storage.delete_object env s b k).2.buckets = s.buckets ∧
      (Storage.delete_object env2 (Storage.delete_object env s b k).2 b k).1 =
        Except.error (.ObjectNotFound k b)) ∧
    (s.objects.find? (fun r => r.bucket_name == b && r.key == k) = none →
      Storage.delete_object env s b k = (.error (.ObjectNotFound k b), s)) := by
  constructor
  · intro r0 hr0
    rw [delete_object_found env s b k r0 hc hr0]
    have hclean : ∀ r ∈ s.objects.filter (fun r => !(r.bucket_name == b && r.key == k)),
        ¬(r.bucket_name = b ∧ r.key = k) := by
      intro r hr
      have hkeep := (List.mem_filter.1 hr).2
      simp only [Bool.not_eq_true', Bool.and_eq_true, beq_iff_eq] at hkeep
      intro hcon
      rcases Bool.and_eq_false_iff.1 hkeep with h | h <;>
        simp [hcon.1, hcon.2] at h
    refine ⟨rfl, hclean, rfl, fsRead_fsRemove_self s.fs r0.file_path, rfl, ?_⟩
    have hnone2 : (s.objects.filter
        (fun r => !(r.bucket_name == b && r.key == k))).find?
        (fun r => r.bucket_name == b && r.key == k) = none := by
      rw [List.find?_eq_none]
      intro x hx
      have := (List.mem_filter.1 hx).2
      simp only [Bool.not_eq_true'] at this
      simp [this]
    rw [delete_object_not_found env2 _ b k hnone2]
  · intro hnone
    exact delete_object_not_found env s b k hnone

/-- Witness for C6 at a concrete input: deleting the one stored object
succeeds with `true` and leaves no blob at the row's recorded path. -/
theorem delete_object_spec_witness :
    (Storage.delete_object (IOEnv.allOk 0) stateC "b" "k").1 = Except.ok true ∧
    fsRead (Storage.delete_object (IOEnv.allOk 0) stateC "b" "k").2.fs
      rowC.file_path = none :=
  ⟨((delete_object_spec (IOEnv.allOk 0) (IOEnv.allOk 0) stateC "b" "k" rfl).1
      rowC rfl).1,
   ((delete_object_spec (IOEnv.allOk 0) (IOEnv.allOk 0) stateC "b" "k" rfl).1
      rowC rfl).2.2.2.1⟩

/-- Claim C7: for a bucket name not previously created, `create_bucket`
succeeds (given the commit goes through) and `bucket_exists` becomes
true; a second `create_bucket` of the same name fails with
`BucketAlreadyExistsInStorage` and returns the state unchanged — the
operation is atomic. -/
theorem create_bucket_spec (env env2 : IOEnv) (s : StorageState) (b : String)
    (hc : env.commitOk = true) (hb : b ∉ s.buckets) :
    (Storage.create_bucket env s b).1 = Except.ok () ∧
    Storage.bucket_exists (Storage.create_bucket env s b).2 b = Except.ok true ∧
    Storage.create_bucket env2 (Storage.create_bucket env s b).2 b =
      (.error (.BucketAlreadyExistsInStorage b), (Storage.create_bucket env s b).2) := by
  have h2 : (Storage.create_bucket env s b).2 = { s with buckets := s.buckets ++ [b] } := by
    simp [Storage.create_bucket, hb, hc]
  have hmem : b ∈ s.buckets ++ [b] := by simp
  refine ⟨by simp [Storage.create_bucket, hb, hc], ?_, ?_⟩
  · rw [h2]
    simp [Storage.bucket_exists, hmem]
  · rw [h2]
    simp [Storage.create_bucket, hmem]

/-- Witness for C7: creating `"b"` in the fresh store succeeds. -/
theorem create_bucket_spec_witness :
    (Storage.create_bucket (IOEnv.allOk 0) StorageState.init "b").1 = Except.ok () :=
  (create_bucket_spec (IOEnv.allOk 0) (IOEnv.allOk 0) StorageState.init "b" rfl
    (by simp [StorageState.init])).1

/-- Claim C8: deleting an absent bucket fails with
`BucketNotFoundInStorage` and changes nothing; deleting a present bucket
(with the commit going through) succeeds, removes the bucket row, and via
the schema's declared `ON DELETE CASCADE` removes every object row scoped
to it, so no object row with that bucket name remains. -/
theorem delete_bucket_spec (env : IOEnv) (s : StorageState) (b : String)
    (hc : env.commitOk = true) :
    (b ∉ s.buckets → Storage._delete_bucket env s b = (.error (.BucketNotFoundInStorage b), s)) ∧
    (b ∈ s.buckets →
      (Storage._delete_bucket env s b).1 = Except.ok () ∧
      b ∉ (Storage._delete_bucket env s b).2.buckets ∧
      ∀ r ∈ (Storage._delete_bucket env s b).2.objects, r.bucket_name ≠ b) := by
  constructor
  · intro hb
    simp [Storage._delete_bucket, hb]
  · intro hb
    have h2 : (Storage._delete_bucket env s b).2 =
        { s with buckets := s.buckets.filter (fun n => n != b),
                 objects := s.objects.filter (fun r => r.bucket_name != b) } := by
      simp [Storage._delete_bucket, hb, hc]
    refine ⟨by simp [Storage._delete_bucket, hb, hc], ?_, ?_⟩
    · rw [h2]
      intro hmem
      have := (List.mem_filter.1 hmem).2
      simp [bne_iff_ne] at this
    · rw [h2]
      intro r hr
      have := (List.mem_filter.1 hr).2
      simpa [bne_iff_ne] using this

/-- Witness for C8: deleting bucket `"b"` from a state holding it and one
of its objects leaves no object row for `"b"`. -/
theorem delete_bucket_spec_witness :
    (Storage._delete_bucket (IOEnv.allOk 0) stateC "b").1 = Except.ok () :=
  ((delete_bucket_spec (IOEnv.allOk 0) stateC "b" rfl).2 (by simp [stateC])).1

/-- Claim C9 counterexample: at the Storage Engine layer (the layer §4.3
of the spec describes), listing an absent bucket does *not* fail: it
returns a successful (empty) listing, not `BucketNotFoundInStorage`. -/
theorem storage_list_objects_absent_bucket :
    Storage.list_objects StorageState.init "nosuch" = Except.ok [] ∧
    Storage.list_objects StorageState.init "nosuch" ≠
      Except.error (.BucketNotFoundInStorage "nosuch") := by
  exact ⟨rfl, by simp [Storage.list_objects]⟩

/-- Claim C9 (amended): `Storage::list_objects` never checks bucket
existence — it always returns `Ok` with the (possibly empty) key list;
the `BucketNotFound` failure for an absent bucket is produced one layer
up, by `S3Service::list_objects`, when the bucket is absent from the
service's own bucket map. -/
theorem list_objects_bucket_check (svc : S3Service) (s : StorageState) (b : String)
    (h : b ∉ svc.buckets) :
    (∃ keys, Storage.list_objects s b = Except.ok keys) ∧
    S3Service.list_objects svc s b = Except.error (.BucketNotFound b) := by
  refine ⟨⟨_, rfl⟩, ?_⟩
  simp [S3Service.list_objects, h]

/-- Witness for C9: the empty service map rejects bucket `"b"` with
`BucketNotFound`. -/
theorem list_objects_bucket_check_witness :
    S3Service.list_objects { buckets := [] } StorageState.init "b" =
      Except.error (.BucketNotFound "b") :=
  (list_objects_bucket_check { buckets := [] } StorageState.init "b"
    (by simp)).2

/-- Claim C10: whenever no catalog row exists for `(bucket, key)` —
including when the bucket itself does not exist, since the query never
consults the `buckets` table — `Storage::get_object` reports
`ObjectNotFound(key, bucket)`, never a bucket-not-found error. -/
theorem get_object_not_found (E : ExtFns) (s : StorageState) (b k : String)
    (h : s.objects.find? (fun r => r.bucket_name == b && r.key == k) = none) :
    Storage.get_object E s b k = Except.error (.ObjectNotFound k b) := by
  simp [Storage.get_object, h]

/-- Witness for C10: a get on the fresh store (no buckets at all) reports
`ObjectNotFound`. -/
theorem get_object_not_found_witness :
    Storage.get_object extC StorageState.init "b" "k" =
      Except.error (.ObjectNotFound "k" "b") :=
  get_object_not_found extC StorageState.init "b" "k" rfl

end S3Spec
